import Mathlib

/-!
Verification of the product-performance classification logic of
src/src/components/DataAnalytics.js (the body of fetchAnalytics, lines 45-71).

Embedding notes.

* A product performance record is embedded as the structure Product below.
  Optional JSON fields are Option-valued.  In JavaScript,
  product.total_units_sold > 20 is false when the field is absent
  (undefined compared with a number is false), and likewise for the
  non-saleable test, so the filters are embedded by matching on the option.

* A JavaScript Date holds a time value (milliseconds since the epoch) or is
  invalid.  new Date(s) for a string s is host-defined, so the date parser is
  a parameter parse : String -> Option Int of the embedding: parse s = some ms
  when new Date(s) is a valid date with time value ms, and none when it is an
  Invalid Date, in which case toISOString() throws a RangeError.
  toISOString().split('T')[0] is the UTC calendar day of the time value; two
  such day strings are equal exactly when the floored day indices
  fdiv ms 86400000 are equal (the day string is determined injectively by the
  day index), so day strings are embedded as day indices.

* product.latest_rating_date ? ... : null tests JavaScript truthiness: for a
  string field this is falsy exactly on the empty string (and on an absent
  field), embedded via Option and String.isEmpty.

* Array.prototype.sort(cmp) with cmp = (a, b) => b.total_units_sold -
  a.total_units_sold is, by the ECMAScript specification (ES2019 onward),
  a stable sort for this comparator: the output is the unique permutation
  that is non-increasing in total_units_sold and preserves the relative
  order of elements with equal total_units_sold.  sortDesc below is a
  stable insertion sort computing exactly that permutation (sortedness and
  stability are proved below, which pins the output uniquely).  The
  comparator reads total_units_sold on filtered elements only, where the
  field is always present.

* The rated-today filter callback can throw (toISOString on an invalid
  date), and the throw is caught by the surrounding try/catch, so the
  classification is embedded in Except Unit.
-/

namespace DataAnalytics

/-- A product performance record, as consumed from the
performance array of the product-performance payload.  Fields that may be
absent in the JSON are Option-valued. -/
structure Product where
  id : Nat
  name : String
  price : Nat
  total_units_sold : Option Nat
  current_stock : Option Nat
  average_rating : Option Nat
  latest_rating_date : Option String
  deriving DecidableEq

/-- The classified analytics state set by setAnalyticsData (the data fields
only; loading and error are UI state). -/
structure ClassificationResult where
  topSaleableProducts : List Product
  nonSaleableProducts : List Product
  currentRatedProducts : List Product
  saleableCount : Nat
  nonSaleableCount : Nat
  deriving DecidableEq

/-- Milliseconds per day, as used by the ECMAScript Date model. -/
def msPerDay : Int := 86400000

/-- UTC calendar day index of a JavaScript time value (the date component of
toISOString, as a day count rather than a string; floored division as in the
ECMAScript Day(t) operation). -/
def utcDay (ms : Int) : Int := Int.fdiv ms msPerDay

/-- The zero-defaulted units-sold value (product.total_units_sold || 0 in the
rendering code; the filters read the raw field, see saleableB/nonSaleableB). -/
def unitsSold (p : Product) : Nat := p.total_units_sold.getD 0

/-- The saleable filter callback: product.total_units_sold > 20.
In JavaScript the comparison is false when the field is absent. -/
def saleableB (p : Product) : Bool :=
  match p.total_units_sold with
  | some n => decide (n > 20)
  | none => false

/-- The non-saleable filter callback:
product.total_units_sold < 3 && product.total_units_sold > 0.
In JavaScript both comparisons are false when the field is absent. -/
def nonSaleableB (p : Product) : Bool :=
  match p.total_units_sold with
  | some n => decide (n < 3) && decide (n > 0)
  | none => false

/-- Stable insertion step for the descending sort: p is placed before the
first element q with total_units_sold of q not exceeding that of p, so an
element equal to p that was already in the list stays in front of p exactly
when it preceded p in the input. -/
def insertDesc (p : Product) : List Product → List Product
  | [] => [p]
  | q :: qs =>
    if unitsSold p < unitsSold q then q :: insertDesc p qs else p :: q :: qs

/-- The stable descending sort by total_units_sold: the embedding of
.sort((a, b) => b.total_units_sold - a.total_units_sold). -/
def sortDesc : List Product → List Product
  | [] => []
  | p :: ps => insertDesc p (sortDesc ps)

/-- The rated-today filter callback body for one record, with Except
modelling a thrown exception: when latest_rating_date is truthy (present and
non-empty) but new Date(...) is invalid, toISOString() throws. -/
def ratedCheck (parse : String → Option Int) (today : Int) (p : Product) :
    Except Unit Bool :=
  match p.latest_rating_date with
  | none => Except.ok false
  | some s =>
    if s.isEmpty then Except.ok false
    else
      match parse s with
      | none => Except.error ()
      | some ms => Except.ok (decide (utcDay ms = today))

/-- performance.filter over the rated-today callback, propagating a thrown
exception from the first failing element (Array.prototype.filter visits
elements left to right). -/
def filterRated (parse : String → Option Int) (today : Int) :
    List Product → Except Unit (List Product)
  | [] => Except.ok []
  | p :: ps =>
    match ratedCheck parse today p with
    | Except.error e => Except.error e
    | Except.ok b =>
      match filterRated parse today ps with
      | Except.error e => Except.error e
      | Except.ok rest => Except.ok (if b then p :: rest else rest)

/-- The pure value of the rated-today test on records where it does not
throw: latest_rating_date is present, non-empty, parses to a valid date,
and its UTC calendar day equals today. -/
def ratedTodayB (parse : String → Option Int) (today : Int) (p : Product) :
    Bool :=
  match p.latest_rating_date with
  | none => false
  | some s =>
    if s.isEmpty then false
    else
      match parse s with
      | none => false
      | some ms => decide (utcDay ms = today)

/-- The classification performed by fetchAnalytics on the fetched
performance array (lines 45-71): saleable filter, non-saleable
filter-and-sort, rated-today filter against the current UTC day, then the
result object with sorted-and-truncated saleable list, truncated
non-saleable list, uncapped rated list, and the pre-truncation counts.
nowMs is the time value of new Date(). -/
def classify (parse : String → Option Int) (nowMs : Int)
    (records : List Product) : Except Unit ClassificationResult :=
  let saleableProducts := records.filter saleableB
  let nonSaleableProducts := sortDesc (records.filter nonSaleableB)
  let today := utcDay nowMs
  match filterRated parse today records with
  | Except.error e => Except.error e
  | Except.ok currentRatedProducts =>
    Except.ok {
      topSaleableProducts := (sortDesc saleableProducts).take 10
      nonSaleableProducts := nonSaleableProducts.take 10
      currentRatedProducts := currentRatedProducts
      saleableCount := saleableProducts.length
      nonSaleableCount := nonSaleableProducts.length }

/-! Concrete sample data, following the worked example of the spec:
five records with 25, 21, 2, 0 and 2 units sold, the last one rated today.
parseSample is a host date parser that recognises the single date string
used by the sample (mapping it to time value 0); parseNone is a host date
parser at a string no engine parses (Invalid Date everywhere). -/

def dToday : String := "2026-10-11"

def parseSample : String → Option Int :=
  fun s => if s = dToday then some 0 else none

def parseNone : String → Option Int := fun _ => none

def badDateStr : String := "not-a-date"

def r1 : Product := ⟨1, "p1", 100, some 25, some 5, none, none⟩

def r2 : Product := ⟨2, "p2", 100, some 21, some 5, none, none⟩

def r3 : Product := ⟨3, "p3", 100, some 2, some 5, none, none⟩

def r4 : Product := ⟨4, "p4", 100, some 0, some 5, none, none⟩

def r5 : Product := ⟨5, "p5", 100, some 2, some 5, some 4, some dToday⟩

def sampleRecords : List Product := [r1, r2, r3, r4, r5]

def resSample : ClassificationResult := ⟨[r1, r2], [r3, r5], [r5], 2, 2⟩

/-- A record whose latest_rating_date is present, non-empty, and not a
parsable date. -/
def rBad : Product := ⟨6, "p6", 100, some 1, some 1, none, some badDateStr⟩

/-! Basic lemmas about the embedded operations. -/

theorem insertDesc_perm (p : Product) (l : List Product) :
    List.Perm (insertDesc p l) (p :: l) := by
  induction l with
  | nil => simp [insertDesc]
  | cons q qs ih =>
    unfold insertDesc
    by_cases h : unitsSold p < unitsSold q
    · simp only [if_pos h]
      exact (ih.cons q).trans (List.Perm.swap p q qs)
    · simp [if_neg h]

theorem sortDesc_perm (l : List Product) : List.Perm (sortDesc l) l := by
  induction l with
  | nil => simp [sortDesc]
  | cons p ps ih => exact (insertDesc_perm p (sortDesc ps)).trans (ih.cons p)

theorem length_sortDesc (l : List Product) :
    (sortDesc l).length = l.length :=
  (sortDesc_perm l).length_eq

theorem mem_sortDesc {p : Product} {l : List Product} :
    p ∈ sortDesc l ↔ p ∈ l :=
  (sortDesc_perm l).mem_iff

theorem pairwise_insertDesc {p : Product} {l : List Product}
    (h : l.Pairwise fun a b => unitsSold b ≤ unitsSold a) :
    (insertDesc p l).Pairwise fun a b => unitsSold b ≤ unitsSold a := by
  induction l with
  | nil => simp [insertDesc]
  | cons q qs ih =>
    rw [List.pairwise_cons] at h
    unfold insertDesc
    by_cases hpq : unitsSold p < unitsSold q
    · simp only [if_pos hpq, List.pairwise_cons]
      refine ⟨?_, ih h.2⟩
      intro x hx
      rcases List.mem_cons.mp ((insertDesc_perm p qs).mem_iff.mp hx) with
        rfl | hx
      · exact Nat.le_of_lt hpq
      · exact h.1 x hx
    · simp only [if_neg hpq, List.pairwise_cons]
      refine ⟨?_, h.1, h.2⟩
      intro x hx
      rcases List.mem_cons.mp hx with rfl | hx
      · exact Nat.le_of_not_lt hpq
      · exact Nat.le_trans (h.1 x hx) (Nat.le_of_not_lt hpq)

theorem pairwise_sortDesc (l : List Product) :
    (sortDesc l).Pairwise fun a b => unitsSold b ≤ unitsSold a := by
  induction l with
  | nil => simp [sortDesc]
  | cons p ps ih => exact pairwise_insertDesc ih

theorem insertDesc_eq_takeWhile (p : Product) (l : List Product) :
    insertDesc p l
      = l.takeWhile (fun q => decide (unitsSold p < unitsSold q))
        ++ p :: l.dropWhile (fun q => decide (unitsSold p < unitsSold q)) := by
  induction l with
  | nil => simp [insertDesc]
  | cons q qs ih =>
    unfold insertDesc
    by_cases h : unitsSold p < unitsSold q
    · simp [List.takeWhile_cons, List.dropWhile_cons, h, ih]
    · simp [List.takeWhile_cons, List.dropWhile_cons, h]

/-- Stability of the embedded sort, in filter form: the records carrying any
fixed units-sold value v appear in the sorted list exactly as they appear in
the unsorted list. -/
theorem filter_sortDesc (v : Nat) (l : List Product) :
    (sortDesc l).filter (fun p => decide (unitsSold p = v))
      = l.filter (fun p => decide (unitsSold p = v)) := by
  induction l with
  | nil => simp [sortDesc]
  | cons p ps ih =>
    show (insertDesc p (sortDesc ps)).filter _ = _
    rw [insertDesc_eq_takeWhile, List.filter_append]
    have hsplit :
        (List.takeWhile (fun q => decide (unitsSold p < unitsSold q))
            (sortDesc ps)).filter (fun p => decide (unitsSold p = v))
          ++ (List.dropWhile (fun q => decide (unitsSold p < unitsSold q))
            (sortDesc ps)).filter (fun p => decide (unitsSold p = v))
        = (sortDesc ps).filter (fun p => decide (unitsSold p = v)) := by
      rw [← List.filter_append, List.takeWhile_append_dropWhile]
    by_cases hv : unitsSold p = v
    · have htake :
          (List.takeWhile (fun q => decide (unitsSold p < unitsSold q))
            (sortDesc ps)).filter (fun p => decide (unitsSold p = v)) = [] := by
        rw [List.filter_eq_nil_iff]
        intro a ha
        have := List.mem_takeWhile_imp ha
        simp only [decide_eq_true_eq] at this ⊢
        omega
      have hdrop :
          (List.dropWhile (fun q => decide (unitsSold p < unitsSold q))
            (sortDesc ps)).filter (fun p => decide (unitsSold p = v))
          = (sortDesc ps).filter (fun p => decide (unitsSold p = v)) := by
        rw [← hsplit, htake, List.nil_append]
      rw [List.filter_cons_of_pos (by simp [hv]), htake, List.nil_append,
        hdrop, ih, List.filter_cons_of_pos (by simp [hv])]
    · rw [List.filter_cons_of_neg (by simp [hv]), hsplit, ih,
        List.filter_cons_of_neg (by simp [hv])]

theorem saleableB_eq_true_iff (p : Product) :
    saleableB p = true ↔ 20 < unitsSold p := by
  unfold saleableB unitsSold
  cases p.total_units_sold <;> simp

theorem nonSaleableB_eq_true_iff (p : Product) :
    nonSaleableB p = true ↔ 0 < unitsSold p ∧ unitsSold p < 3 := by
  unfold nonSaleableB unitsSold
  cases p.total_units_sold with
  | none => simp
  | some n => simp; omega

theorem ratedCheck_ok_eq {parse : String → Option Int} {today : Int}
    {p : Product} {b : Bool} (h : ratedCheck parse today p = Except.ok b) :
    b = ratedTodayB parse today p := by
  cases hd : p.latest_rating_date with
  | none =>
    simp only [ratedCheck, hd, Except.ok.injEq] at h
    simp only [ratedTodayB, hd]
    exact h.symm
  | some s =>
    by_cases he : s.isEmpty
    · simp only [ratedCheck, hd, if_pos he, Except.ok.injEq] at h
      simp only [ratedTodayB, hd, if_pos he]
      exact h.symm
    · cases hp : parse s with
      | none =>
        simp only [ratedCheck, hd, if_neg he, hp] at h
        exact Except.noConfusion h
      | some ms =>
        simp only [ratedCheck, hd, if_neg he, hp, Except.ok.injEq] at h
        simp only [ratedTodayB, hd, if_neg he, hp]
        exact h.symm

theorem filterRated_ok_eq {parse : String → Option Int} {today : Int} :
    ∀ {l out : List Product},
      filterRated parse today l = Except.ok out →
        out = l.filter (ratedTodayB parse today) := by
  intro l
  induction l with
  | nil =>
    intro out h
    simp only [filterRated] at h
    simp [← Except.ok.inj h]
  | cons p ps ih =>
    intro out h
    unfold filterRated at h
    cases hc : ratedCheck parse today p with
    | error e => rw [hc] at h; exact absurd h (by simp)
    | ok b =>
      rw [hc] at h
      cases hr : filterRated parse today ps with
      | error e => rw [hr] at h; exact absurd h (by simp)
      | ok rest =>
        rw [hr] at h
        have hb := ratedCheck_ok_eq hc
        have hrest := ih hr
        rw [← Except.ok.inj h, List.filter_cons, ← hb, hrest]

theorem ratedCheck_isOk {parse : String → Option Int} {today : Int}
    {p : Product}
    (h : (p.latest_rating_date.all
      fun s => s.isEmpty || (parse s).isSome) = true) :
    ratedCheck parse today p = Except.ok (ratedTodayB parse today p) := by
  cases hd : p.latest_rating_date with
  | none => simp [ratedCheck, ratedTodayB, hd]
  | some s =>
    rw [hd] at h
    simp only [Option.all_some, Bool.or_eq_true] at h
    by_cases he : s.isEmpty
    · simp [ratedCheck, ratedTodayB, hd, he]
    · cases hp : parse s with
      | none =>
        rcases h with h | h
        · exact absurd h he
        · rw [hp] at h; exact absurd h (by simp)
      | some ms => simp [ratedCheck, ratedTodayB, hd, he, hp]

theorem filterRated_isOk {parse : String → Option Int} {today : Int}
    {l : List Product}
    (h : ∀ p ∈ l, (p.latest_rating_date.all
      fun s => s.isEmpty || (parse s).isSome) = true) :
    filterRated parse today l
      = Except.ok (l.filter (ratedTodayB parse today)) := by
  induction l with
  | nil => rfl
  | cons p ps ih =>
    unfold filterRated
    rw [ratedCheck_isOk (h p (List.mem_cons_self p ps)),
      ih (fun q hq => h q (List.mem_cons_of_mem p hq)), List.filter_cons]

/-- Inversion of a successful classification: what each output field equals
in terms of the input. -/
theorem classify_ok_elim {parse : String → Option Int} {nowMs : Int}
    {records : List Product} {res : ClassificationResult}
    (h : classify parse nowMs records = Except.ok res) :
    res.topSaleableProducts = (sortDesc (records.filter saleableB)).take 10
    ∧ res.nonSaleableProducts
        = (sortDesc (records.filter nonSaleableB)).take 10
    ∧ res.currentRatedProducts
        = records.filter (ratedTodayB parse (utcDay nowMs))
    ∧ res.saleableCount = (records.filter saleableB).length
    ∧ res.nonSaleableCount = (sortDesc (records.filter nonSaleableB)).length
    := by
  simp only [classify] at h
  cases hfr : filterRated parse (utcDay nowMs) records with
  | error e => rw [hfr] at h; exact absurd h (by simp)
  | ok cur =>
    rw [hfr] at h
    simp only [Except.ok.injEq] at h
    have hcur := filterRated_ok_eq hfr
    rw [← h]
    exact ⟨rfl, rfl, hcur, rfl, rfl⟩

/-! The claims. -/

/-- Claim C1: for every input sequence of records, topSaleableProducts
equals the first (at most) 10 elements of the stable descending-by-
total_units_sold sort of the subsequence of records with total_units_sold
over 20; consequently it has length at most 10 and every element has
total_units_sold over 20. -/
theorem claim_C1 (parse : String → Option Int) (nowMs : Int)
    (records : List Product) (res : ClassificationResult)
    (h : classify parse nowMs records = Except.ok res) :
    res.topSaleableProducts = (sortDesc (records.filter saleableB)).take 10
    ∧ res.topSaleableProducts.length ≤ 10
    ∧ ∀ p ∈ res.topSaleableProducts, 20 < unitsSold p := by
  obtain ⟨htop, -, -, -, -⟩ := classify_ok_elim h
  refine ⟨htop, ?_, ?_⟩
  · rw [htop]
    exact List.length_take_le 10 _
  · intro p hp
    rw [htop] at hp
    have hmem := mem_sortDesc.mp (List.mem_of_mem_take hp)
    exact (saleableB_eq_true_iff p).mp (List.of_mem_filter hmem)

/-- Closed instance of claim C1 at the worked example of the spec. -/
theorem claim_C1_witness :
    classify parseSample 0 sampleRecords = Except.ok resSample
    ∧ (resSample.topSaleableProducts
        = (sortDesc (sampleRecords.filter saleableB)).take 10
      ∧ resSample.topSaleableProducts.length ≤ 10
      ∧ ∀ p ∈ resSample.topSaleableProducts, 20 < unitsSold p) :=
  ⟨rfl, claim_C1 parseSample 0 sampleRecords resSample rfl⟩

/-- Claim C2: for every input on which classification succeeds,
currentRatedProducts is exactly the subsequence of records whose
latest_rating_date is present (truthy) and whose UTC calendar day equals
the UTC calendar day of now; a record with no latest_rating_date is never
included, and no length cap is applied. -/
theorem claim_C2 (parse : String → Option Int) (nowMs : Int)
    (records : List Product) (res : ClassificationResult)
    (h : classify parse nowMs records = Except.ok res) :
    res.currentRatedProducts
        = records.filter (ratedTodayB parse (utcDay nowMs))
    ∧ ∀ p ∈ res.currentRatedProducts, p.latest_rating_date ≠ none := by
  obtain ⟨-, -, hcur, -, -⟩ := classify_ok_elim h
  refine ⟨hcur, ?_⟩
  intro p hp hnone
  rw [hcur] at hp
  have hb := List.of_mem_filter hp
  simp [ratedTodayB, hnone] at hb

/-- Closed instance of claim C2 at the worked example of the spec. -/
theorem claim_C2_witness :
    classify parseSample 0 sampleRecords = Except.ok resSample
    ∧ (resSample.currentRatedProducts
        = sampleRecords.filter (ratedTodayB parseSample (utcDay 0))
      ∧ ∀ p ∈ resSample.currentRatedProducts, p.latest_rating_date ≠ none) :=
  ⟨rfl, claim_C2 parseSample 0 sampleRecords resSample rfl⟩

/-- Claim C3: saleableCount is the number of records with total_units_sold
over 20 before truncation, nonSaleableCount the number with
total_units_sold strictly between 0 and 3 before truncation; hence
saleableCount is at least the length of topSaleableProducts, with equality
exactly when the filtered saleable set has size at most 10. -/
theorem claim_C3 (parse : String → Option Int) (nowMs : Int)
    (records : List Product) (res : ClassificationResult)
    (h : classify parse nowMs records = Except.ok res) :
    res.saleableCount = (records.filter saleableB).length
    ∧ res.nonSaleableCount = (records.filter nonSaleableB).length
    ∧ res.topSaleableProducts.length ≤ res.saleableCount
    ∧ (res.saleableCount = res.topSaleableProducts.length
        ↔ (records.filter saleableB).length ≤ 10) := by
  obtain ⟨htop, -, -, hsc, hnsc⟩ := classify_ok_elim h
  have hlen : res.topSaleableProducts.length
      = min 10 (records.filter saleableB).length := by
    rw [htop, List.length_take, length_sortDesc]
  refine ⟨hsc, ?_, ?_, ?_⟩
  · rw [hnsc, length_sortDesc]
  · rw [hlen, hsc]; omega
  · rw [hlen, hsc]; omega

/-- Closed instance of claim C3 at the worked example of the spec. -/
theorem claim_C3_witness :
    classify parseSample 0 sampleRecords = Except.ok resSample
    ∧ (resSample.saleableCount = (sampleRecords.filter saleableB).length
      ∧ resSample.nonSaleableCount
          = (sampleRecords.filter nonSaleableB).length
      ∧ resSample.topSaleableProducts.length ≤ resSample.saleableCount
      ∧ (resSample.saleableCount = resSample.topSaleableProducts.length
          ↔ (sampleRecords.filter saleableB).length ≤ 10)) :=
  ⟨rfl, claim_C3 parseSample 0 sampleRecords resSample rfl⟩

/-- Claim C4: nonSaleableProducts has length at most 10, every element has
total_units_sold strictly between 0 and 3, and no element has
total_units_sold zero or absent. -/
theorem claim_C4 (parse : String → Option Int) (nowMs : Int)
    (records : List Product) (res : ClassificationResult)
    (h : classify parse nowMs records = Except.ok res) :
    res.nonSaleableProducts.length ≤ 10
    ∧ ∀ p ∈ res.nonSaleableProducts,
        (0 < unitsSold p ∧ unitsSold p < 3)
        ∧ p.total_units_sold ≠ none ∧ p.total_units_sold ≠ some 0 := by
  obtain ⟨-, hns, -, -, -⟩ := classify_ok_elim h
  refine ⟨?_, ?_⟩
  · rw [hns]
    exact List.length_take_le 10 _
  · intro p hp
    rw [hns] at hp
    have hmem := mem_sortDesc.mp (List.mem_of_mem_take hp)
    obtain ⟨hb1, hb2⟩ :=
      (nonSaleableB_eq_true_iff p).mp (List.of_mem_filter hmem)
    refine ⟨⟨hb1, hb2⟩, ?_, ?_⟩
    · intro hn
      have hz : unitsSold p = 0 := by simp [unitsSold, hn]
      omega
    · intro hn
      have hz : unitsSold p = 0 := by simp [unitsSold, hn]
      omega

/-- Closed instance of claim C4 at the worked example of the spec. -/
theorem claim_C4_witness :
    classify parseSample 0 sampleRecords = Except.ok resSample
    ∧ (resSample.nonSaleableProducts.length ≤ 10
      ∧ ∀ p ∈ resSample.nonSaleableProducts,
          (0 < unitsSold p ∧ unitsSold p < 3)
          ∧ p.total_units_sold ≠ none ∧ p.total_units_sold ≠ some 0) :=
  ⟨rfl, claim_C4 parseSample 0 sampleRecords resSample rfl⟩

/-- Claim C5: the sorts producing topSaleableProducts and
nonSaleableProducts are descending by total_units_sold and stable: each
sorted filtered list is pairwise non-increasing in units sold, and for
every units-sold value v the records of the sorted list carrying v are
exactly the records of the input that survive the filter and carry v, in
input order. -/
theorem claim_C5 (parse : String → Option Int) (nowMs : Int)
    (records : List Product) (res : ClassificationResult)
    (h : classify parse nowMs records = Except.ok res) :
    res.topSaleableProducts = (sortDesc (records.filter saleableB)).take 10
    ∧ res.nonSaleableProducts
        = (sortDesc (records.filter nonSaleableB)).take 10
    ∧ (sortDesc (records.filter saleableB)).Pairwise
        (fun a b => unitsSold b ≤ unitsSold a)
    ∧ (sortDesc (records.filter nonSaleableB)).Pairwise
        (fun a b => unitsSold b ≤ unitsSold a)
    ∧ (∀ v : Nat,
        (sortDesc (records.filter saleableB)).filter
            (fun p => decide (unitsSold p = v))
          = records.filter
              (fun p => saleableB p && decide (unitsSold p = v)))
    ∧ (∀ v : Nat,
        (sortDesc (records.filter nonSaleableB)).filter
            (fun p => decide (unitsSold p = v))
          = records.filter
              (fun p => nonSaleableB p && decide (unitsSold p = v))) := by
  obtain ⟨htop, hns, -, -, -⟩ := classify_ok_elim h
  refine ⟨htop, hns, pairwise_sortDesc _, pairwise_sortDesc _, ?_, ?_⟩
  · intro v
    rw [filter_sortDesc, List.filter_filter]
    exact List.filter_congr fun x _ => Bool.and_comm _ _
  · intro v
    rw [filter_sortDesc, List.filter_filter]
    exact List.filter_congr fun x _ => Bool.and_comm _ _

/-- Closed instance of claim C5 at the worked example of the spec. -/
theorem claim_C5_witness :
    classify parseSample 0 sampleRecords = Except.ok resSample
    ∧ (resSample.topSaleableProducts
        = (sortDesc (sampleRecords.filter saleableB)).take 10
      ∧ resSample.nonSaleableProducts
          = (sortDesc (sampleRecords.filter nonSaleableB)).take 10
      ∧ (sortDesc (sampleRecords.filter saleableB)).Pairwise
          (fun a b => unitsSold b ≤ unitsSold a)
      ∧ (sortDesc (sampleRecords.filter nonSaleableB)).Pairwise
          (fun a b => unitsSold b ≤ unitsSold a)
      ∧ (∀ v : Nat,
          (sortDesc (sampleRecords.filter saleableB)).filter
              (fun p => decide (unitsSold p = v))
            = sampleRecords.filter
                (fun p => saleableB p && decide (unitsSold p = v)))
      ∧ (∀ v : Nat,
          (sortDesc (sampleRecords.filter nonSaleableB)).filter
              (fun p => decide (unitsSold p = v))
            = sampleRecords.filter
                (fun p => nonSaleableB p && decide (unitsSold p = v)))) :=
  ⟨rfl, claim_C5 parseSample 0 sampleRecords resSample rfl⟩

/-- Claim C6, as stated, is false: classification can raise.  At a record
whose latest_rating_date is present, non-empty and not parsable as a date
(every JavaScript engine yields an Invalid Date for the string
"not-a-date", embedded by the host parser parseNone), the filter callback
calls toISOString on an Invalid Date, which throws, so classification
propagates an error instead of excluding the record silently. -/
theorem claim_C6_counterexample :
    classify parseNone 0 [rBad] = Except.error () := rfl

/-- Claim C6 (amended): classification never raises provided every present
latest_rating_date is empty or parses as a valid date; in particular
records with missing optional fields never cause an error (missing numeric
fields default to zero in the filters, records with a missing rating date
are excluded from the rated bucket), and on such inputs the full
classification result is produced. -/
theorem claim_C6_amended (parse : String → Option Int) (nowMs : Int)
    (records : List Product)
    (h : ∀ p ∈ records, (p.latest_rating_date.all
      fun s => s.isEmpty || (parse s).isSome) = true) :
    classify parse nowMs records
      = Except.ok {
          topSaleableProducts :=
            (sortDesc (records.filter saleableB)).take 10
          nonSaleableProducts :=
            (sortDesc (records.filter nonSaleableB)).take 10
          currentRatedProducts :=
            records.filter (ratedTodayB parse (utcDay nowMs))
          saleableCount := (records.filter saleableB).length
          nonSaleableCount :=
            (sortDesc (records.filter nonSaleableB)).length } := by
  simp only [classify]
  rw [filterRated_isOk h]

/-- Closed instance of amended claim C6 at the worked example of the
spec. -/
theorem claim_C6_amended_witness :
    (∀ p ∈ sampleRecords, (p.latest_rating_date.all
      fun s => s.isEmpty || (parseSample s).isSome) = true)
    ∧ classify parseSample 0 sampleRecords
        = Except.ok {
            topSaleableProducts :=
              (sortDesc (sampleRecords.filter saleableB)).take 10
            nonSaleableProducts :=
              (sortDesc (sampleRecords.filter nonSaleableB)).take 10
            currentRatedProducts :=
              sampleRecords.filter (ratedTodayB parseSample (utcDay 0))
            saleableCount := (sampleRecords.filter saleableB).length
            nonSaleableCount :=
              (sortDesc (sampleRecords.filter nonSaleableB)).length } :=
  ⟨by decide, claim_C6_amended parseSample 0 sampleRecords (by decide)⟩

/-- Claim C7: a record with an absent total_units_sold (or current_stock)
field is filtered as if the value were zero (the filters agree with the
zero-defaulted predicates), and every record placed in an output list is an
original input record, unchanged. -/
theorem claim_C7 (parse : String → Option Int) (nowMs : Int)
    (records : List Product) (res : ClassificationResult)
    (h : classify parse nowMs records = Except.ok res) :
    (∀ p : Product, saleableB p = decide (20 < unitsSold p))
    ∧ (∀ p : Product,
        nonSaleableB p
          = (decide (0 < unitsSold p) && decide (unitsSold p < 3)))
    ∧ (∀ p ∈ res.topSaleableProducts, p ∈ records)
    ∧ (∀ p ∈ res.nonSaleableProducts, p ∈ records)
    ∧ (∀ p ∈ res.currentRatedProducts, p ∈ records) := by
  obtain ⟨htop, hns, hcur, -, -⟩ := classify_ok_elim h
  refine ⟨?_, ?_, ?_, ?_, ?_⟩
  · intro p
    unfold saleableB unitsSold
    cases p.total_units_sold <;> simp
  · intro p
    unfold nonSaleableB unitsSold
    cases p.total_units_sold with
    | none => simp
    | some n => exact Bool.and_comm _ _
  · intro p hp
    rw [htop] at hp
    exact List.mem_of_mem_filter (mem_sortDesc.mp (List.mem_of_mem_take hp))
  · intro p hp
    rw [hns] at hp
    exact List.mem_of_mem_filter (mem_sortDesc.mp (List.mem_of_mem_take hp))
  · intro p hp
    rw [hcur] at hp
    exact List.mem_of_mem_filter hp

/-- Closed instance of claim C7 at the worked example of the spec. -/
theorem claim_C7_witness :
    classify parseSample 0 sampleRecords = Except.ok resSample
    ∧ ((∀ p : Product, saleableB p = decide (20 < unitsSold p))
      ∧ (∀ p : Product,
          nonSaleableB p
            = (decide (0 < unitsSold p) && decide (unitsSold p < 3)))
      ∧ (∀ p ∈ resSample.topSaleableProducts, p ∈ sampleRecords)
      ∧ (∀ p ∈ resSample.nonSaleableProducts, p ∈ sampleRecords)
      ∧ (∀ p ∈ resSample.currentRatedProducts, p ∈ sampleRecords)) :=
  ⟨rfl, claim_C7 parseSample 0 sampleRecords resSample rfl⟩

/-- Claim C8: classification is deterministic in its two inputs: two
invocations with the same records and with time values of now falling on
the same UTC calendar day yield identical results. -/
theorem claim_C8 (parse : String → Option Int) (records : List Product)
    (n1 n2 : Int) (h : utcDay n1 = utcDay n2) :
    classify parse n1 records = classify parse n2 records := by
  simp only [classify, h]

/-- Closed instance of claim C8: two times of the same UTC day. -/
theorem claim_C8_witness :
    utcDay 0 = utcDay 5
    ∧ classify parseSample 0 sampleRecords
        = classify parseSample 5 sampleRecords :=
  ⟨rfl, claim_C8 parseSample sampleRecords 0 5 rfl⟩

/-- Claim C9: for the empty input, classification succeeds and produces
the empty result: all three lists empty, both counts zero. -/
theorem claim_C9 (parse : String → Option Int) (nowMs : Int) :
    classify parse nowMs []
      = Except.ok (⟨[], [], [], 0, 0⟩ : ClassificationResult) := rfl

/-- Claim C10: currentRatedProducts is the order-preserving subsequence of
the input consisting of the rated-today records. -/
theorem claim_C10 (parse : String → Option Int) (nowMs : Int)
    (records : List Product) (res : ClassificationResult)
    (h : classify parse nowMs records = Except.ok res) :
    res.currentRatedProducts.Sublist records
    ∧ res.currentRatedProducts
        = records.filter (ratedTodayB parse (utcDay nowMs)) := by
  obtain ⟨-, -, hcur, -, -⟩ := classify_ok_elim h
  refine ⟨?_, hcur⟩
  rw [hcur]
  exact List.filter_sublist records

/-- Closed instance of claim C10 at the worked example of the spec. -/
theorem claim_C10_witness :
    classify parseSample 0 sampleRecords = Except.ok resSample
    ∧ (resSample.currentRatedProducts.Sublist sampleRecords
      ∧ resSample.currentRatedProducts
          = sampleRecords.filter (ratedTodayB parseSample (utcDay 0))) :=
  ⟨rfl, claim_C10 parseSample 0 sampleRecords resSample rfl⟩

end DataAnalytics
